import Mathlib

/-!
Verification of the Rust libxml2 reimplementation (`src/rs/src/parser.rs`,
`src/rs/src/doc.rs`, `src/rs/src/tree.rs`) against its natural-language
specification.

Bytes are modelled as natural numbers (the source works on `&[u8]`; every
construct used here is value-preserving, so no modular arithmetic is needed:
all literals compared against are below 256 and arithmetic on byte values is
only comparison).  Buffers are `List Nat`.  Fallible Rust functions returning
`Result<T, ()>` are modelled as `Option T`; a Rust panic (`expect`) is also
modelled as `none`, and the distinction is documented at each site.

Loops in the source that advance a cursor are modelled either structurally on
the remaining suffix of the buffer or with explicit fuel.  Where fuel is used,
the call sites supply `data.length + 1`; each loop iteration of the source
advances the cursor by at least one byte while the loop only continues when
the cursor is strictly inside the buffer, so this fuel can never be exhausted
and the fuel-based function agrees with the unbounded Rust loop.
-/

abbrev Bytes := List Nat

/-! ### Byte classifiers, from `parser.rs` -/

/-- Source `is_name_start` (parser.rs:1292): ASCII letter, `_` or `:`. -/
def is_name_start (b : Nat) : Bool :=
  (65 ≤ b && b ≤ 90) || (97 ≤ b && b ≤ 122) || b == 95 || b == 58

/-- Source `is_name_char` (parser.rs:1300): name start, digit, `-` or `.`. -/
def is_name_char (b : Nat) : Bool :=
  is_name_start b || (48 ≤ b && b ≤ 57) || b == 45 || b == 46

/-- Rust `u8::is_ascii_whitespace`: space, tab, line feed, form feed,
carriage return. -/
def isAsciiWs (b : Nat) : Bool :=
  b == 32 || b == 9 || b == 10 || b == 12 || b == 13

/-! ### Entity decoding, from `parser.rs` (`decode_entities`,
`push_codepoint`) -/

/-- Split the input at the first `;` (byte 59): source
`data[i + 1..].iter().position(|&b| b == b';')` in `decode_entities`
(parser.rs:1238).  Returns the bytes before the `;` and the bytes after it,
or `none` when no `;` occurs (which the source treats as a hard failure). -/
def split_at_semi : Bytes → Option (Bytes × Bytes)
  | [] => none
  | b :: t =>
    if b = 59 then some ([], t)
    else (split_at_semi t).map (fun p => (b :: p.1, p.2))

/-- Rust `char::to_digit(radix)` restricted to ASCII bytes: `0`-`9` map to
0-9, `a`-`z` to 10-35, `A`-`Z` to 10-35, and the value must be below the
radix.  Used by `u32::from_str_radix` / `str::parse::<u32>` byte by byte. -/
def digit_val (radix b : Nat) : Option Nat :=
  if 48 ≤ b ∧ b ≤ 57 then (if b - 48 < radix then some (b - 48) else none)
  else if 97 ≤ b ∧ b ≤ 122 then (if b - 87 < radix then some (b - 87) else none)
  else if 65 ≤ b ∧ b ≤ 90 then (if b - 55 < radix then some (b - 55) else none)
  else none

/-- Specification-side: an ASCII hexadecimal digit, either case. -/
def spec_is_hex_digit (b : Nat) : Bool :=
  (48 ≤ b && b ≤ 57) || (97 ≤ b && b ≤ 102) || (65 ≤ b && b ≤ 70)

/-- Specification-side value of a hexadecimal digit, case-insensitive. -/
def spec_hex_val (b : Nat) : Nat :=
  if b ≤ 57 then b - 48 else if b ≤ 70 then b - 55 else b - 87

/-- Accumulating digit fold of Rust's integer parsing.  Rust fails at the
first intermediate overflow of `u32`; because the accumulated value is
monotone in the digits consumed, that is equivalent to computing the exact
natural value and rejecting it iff the final value is at least `2^32`, which
`parse_u32` below does. -/
def parse_digits (radix : Nat) : Bytes → Nat → Option Nat
  | [], acc => some acc
  | b :: t, acc =>
    (digit_val radix b).bind (fun d => parse_digits radix t (acc * radix + d))

/-- Rust `u32::from_str_radix(s, radix)` / `s.parse::<u32>()` on a byte
buffer: an optional leading `+` (a `-` is an invalid digit for an unsigned
target), then at least one digit in the radix, rejecting values that do not
fit in 32 bits.  The source first checks the bytes are UTF-8
(`std::str::from_utf8`); any byte failing that check is not an ASCII digit,
so it is rejected by `digit_val` here exactly as the source rejects it. -/
def parse_u32 (radix : Nat) (l : Bytes) : Option Nat :=
  let l2 : Bytes :=
    match l with
    | [] => l
    | b :: t => if b = 43 then t else l
  if l2 = [] then none
  else (parse_digits radix l2 0).bind
    (fun v => if v < 4294967296 then some v else none)

/-- The numeric-reference dispatch in `decode_entities` (parser.rs:1249):
`entity` starts with `#`; if its second byte is `x` (120) or `X` (88) the
remainder is parsed as hexadecimal, otherwise everything after `#` is parsed
as decimal. -/
def numeric_entity_value (entity : Bytes) : Option Nat :=
  if 1 < entity.length ∧ (entity.getD 1 0 = 120 ∨ entity.getD 1 0 = 88) then
    parse_u32 16 (entity.drop 2)
  else
    parse_u32 10 (entity.drop 1)

/-- Valid Unicode scalar values, the domain of Rust `char::from_u32`:
everything below `0x110000` except the surrogate range. -/
def is_valid_scalar (c : Nat) : Bool :=
  c < 55296 || (57344 ≤ c && c ≤ 1114111)

/-- UTF-8 encoding of a scalar value, as produced by Rust
`char::encode_utf8` (parser.rs `push_codepoint`). -/
def utf8_bytes (c : Nat) : Bytes :=
  if c < 128 then [c]
  else if c < 2048 then [192 + c / 64, 128 + c % 64]
  else if c < 65536 then [224 + c / 4096, 128 + c / 64 % 64, 128 + c % 64]
  else [240 + c / 262144, 128 + c / 4096 % 64, 128 + c / 64 % 64, 128 + c % 64]

/-- Source `push_codepoint` (parser.rs:1281): `char::from_u32` fails on
surrogates and values above `0x10FFFF`; otherwise the UTF-8 bytes of the
code point are appended. -/
def push_codepoint (c : Nat) : Option Bytes :=
  if is_valid_scalar c then some (utf8_bytes c) else none

/-- The named-entity table of `decode_entities` (parser.rs:1259): the five
predefined entities map to their single byte; any other name is copied to
the output verbatim, `&` and `;` delimiters included. -/
def named_entity_bytes (entity : Bytes) : Bytes :=
  if entity = [108, 116] then [60]             -- lt  -> <
  else if entity = [103, 116] then [62]        -- gt  -> >
  else if entity = [97, 109, 112] then [38]    -- amp -> &
  else if entity = [97, 112, 111, 115] then [39]      -- apos -> apostrophe
  else if entity = [113, 117, 111, 116] then [34]     -- quot -> double quote
  else 38 :: entity ++ [59]

/-- Fuel-based body of `decode_entities` (parser.rs:1232).  Each recursive
call consumes at least one input byte, so fuel `l.length + 1` (supplied by
`decode_entities`) is never exhausted; the `fuel = 0` branch is
unreachable. -/
def decodeF : Nat → Bytes → Option Bytes
  | 0, _ => none
  | _ + 1, [] => some []
  | fuel + 1, b :: rest =>
    if b = 38 then
      (split_at_semi rest).bind (fun p =>
        if p.1 = [] then none
        else if p.1.getD 0 0 = 35 then
          (numeric_entity_value p.1).bind (fun cp =>
            (push_codepoint cp).bind (fun enc =>
              (decodeF fuel p.2).map (fun out => enc ++ out)))
        else (decodeF fuel p.2).map (fun out => named_entity_bytes p.1 ++ out))
    else (decodeF fuel rest).map (fun out => b :: out)

/-- Source `decode_entities` (parser.rs:1232): decode predefined and numeric
references, copy unknown named references verbatim, fail on a `&` without a
following `;`, an empty reference, or a bad numeric reference. -/
def decode_entities (l : Bytes) : Option Bytes :=
  decodeF (l.length + 1) l

-- Sanity checks.
example : decode_entities [38, 108, 116, 59] = some [60] := by decide
example : decode_entities [38, 35, 54, 53, 59] = some [65] := by decide
example : decode_entities [38, 102, 111, 111, 59] = some [38, 102, 111, 111, 59] := by rfl

/-! ### Document store and handle registry, from `doc.rs`

The Rust `XmlDocExtras` also carries the arena vectors (`node_storage`,
`attr_storage`, `string_storage`, `ns_storage`) and a cached xml-namespace
pointer.  Those fields hold the tree's backing memory; they carry no
metadata observable through the operations the claims are about
(version / encoding / URL round-tripping and presence of the extras), so
the model keeps only the three metadata fields.  Tree contents are modelled
separately as values (`XNode`). -/

/-- Metadata half of `XmlDocExtras` (doc.rs:15): owned copies of the
version, encoding and URL strings (`None` means "use the default"). -/
structure XmlDocExtras where
  version : Option Bytes
  encoding : Option Bytes
  url : Option Bytes
deriving DecidableEq, Repr

/-- The process-wide `DOC_EXTRAS` table (doc.rs:120): a map from an exported
document's address to its metadata. -/
def Registry := Nat → Option XmlDocExtras

/-- The empty registry. -/
def regEmpty : Registry := fun _ => none

/-- Source `register_extras` (doc.rs:518): `HashMap::insert`, overwriting
any stale entry for the address. -/
def regInsert (r : Registry) (k : Nat) (e : XmlDocExtras) : Registry :=
  fun a => if a = k then some e else r a

/-- Source `take_extras` (doc.rs:523): `HashMap::remove`; the returned
value is read separately via the map itself. -/
def regRemove (r : Registry) (k : Nat) : Registry :=
  fun a => if a = k then none else r a

/-- The `XmlDocument` RAII wrapper (doc.rs:129): a non-null address
(`inner : NonNull<xmlDoc>`) plus optionally-present extras.  The extras are
`some` for freshly constructed documents and may be `none` after
`from_raw` on an address the registry does not know. -/
structure XmlDocumentW where
  addr : Nat
  extras : Option XmlDocExtras
deriving DecidableEq, Repr

/-- Source `XmlDocument::into_raw` (doc.rs:213): hand the address to the
caller and register the extras (when present) in the registry under that
address. -/
def into_raw (d : XmlDocumentW) (reg : Registry) : Nat × Registry :=
  match d.extras with
  | some e => (d.addr, regInsert reg d.addr e)
  | none => (d.addr, reg)

/-- Source `XmlDocument::from_raw` (doc.rs:229): `NonNull::new` fails on
the null address; otherwise the wrapper is rebuilt with whatever extras the
registry holds for the address (possibly none), and the registry entry is
removed. -/
def from_raw (doc : Nat) (reg : Registry) : Option XmlDocumentW × Registry :=
  if doc = 0 then (none, reg)
  else (some ⟨doc, reg doc⟩, regRemove reg doc)

/-- Source `XmlDocument::extras_mut` (doc.rs:235): `Option::expect` on the
extras — a panic, modelled as `none`, when the extras are absent. -/
def extras_mut (d : XmlDocumentW) : Option XmlDocExtras :=
  d.extras

/-- Source `XmlDocument::set_version_bytes` (doc.rs:250), which goes
through `extras_mut`: `none` models the `expect` panic when the wrapper
carries no extras. -/
def set_version_bytes (d : XmlDocumentW) (v : Bytes) : Option XmlDocumentW :=
  match extras_mut d with
  | none => none
  | some e => some { d with extras := some { e with version := some v } }

/-- Source `XmlDocument::set_encoding_bytes` (doc.rs:257), through
`extras_mut` as well. -/
def set_encoding_bytes (d : XmlDocumentW) (v : Bytes) : Option XmlDocumentW :=
  match extras_mut d with
  | none => none
  | some e => some { d with extras := some { e with encoding := some v } }

/-- Source `XmlDocument::clear_tree` (doc.rs:241): resets the document's
child pointers and clears the arenas through `extras_mut`; the metadata
fields are untouched.  `none` models the `expect` panic on absent extras. -/
def clear_tree_op (d : XmlDocumentW) : Option XmlDocumentW :=
  match extras_mut d with
  | none => none
  | some _ => some d

/-- Displayed version of a document (doc.rs `version_ptr`): the stored
bytes, or the default `1.0`. -/
def version_view (e : XmlDocExtras) : Bytes :=
  e.version.getD [49, 46, 48]

/-- Displayed encoding (doc.rs `encoding_ptr`): the stored bytes, or the
default `UTF-8`. -/
def encoding_view (e : XmlDocExtras) : Bytes :=
  e.encoding.getD [85, 84, 70, 45, 56]

/-! ### The tree values built by one parse -/

/-- Nodes the parser allocates and links: elements (with their decoded
attribute list), text nodes (decoded content) and comments (verbatim
content).  Processing instructions are scanned but never attached
(parser.rs:1101), so they need no constructor. -/
inductive XNode where
  | element (name : Bytes) (attrs : List (Bytes × Bytes)) (children : List XNode)
  | text (content : Bytes)
  | comment (content : Bytes)
deriving Repr

/-- The observable result of a successful parse: the metadata of the
produced document and its top-level child list, in order. -/
structure DocModel where
  version : Option Bytes
  encoding : Option Bytes
  url : Option Bytes
  children : List XNode
  parseFlags : Int
deriving Repr

/-! ### The parser engine, from `parser.rs` (`SimpleParser`)

The source builds the tree through arena pointers: a start-tag allocates
the element and links it to its parent at once, and later children are
appended through the parent pointer.  The model keeps the by-now-closed
top-level nodes in `rootAcc` and one frame per open element on `stack`
(the source's `Vec<*mut xmlNode>` of open elements, innermost first here);
an element reaches its parent's child list when it closes, which yields the
same final tree in the same order, since nothing is observable before the
parse completes.  `rootCount` is the source's `root_count`. -/

/-- One open element: its name, decoded attributes, and the children
accumulated so far (in document order). -/
structure Frame where
  name : Bytes
  attrs : List (Bytes × Bytes)
  children : List XNode
deriving Repr

/-- The cursor and tree-building state of `SimpleParser` (parser.rs:905),
plus the document metadata the parser mutates through
`set_version_bytes` / `set_encoding_bytes`. -/
structure PSt where
  pos : Nat
  stack : List Frame
  rootAcc : List XNode
  rootCount : Nat
  version : Option Bytes
  encoding : Option Bytes
deriving Repr

/-- Number of leading ASCII-whitespace bytes of a buffer. -/
def ws_count : Bytes → Nat
  | [] => 0
  | b :: t => if isAsciiWs b then ws_count t + 1 else 0

/-- Source `skip_whitespace` (parser.rs:956): advance the cursor over
ASCII whitespace. -/
def skip_whitespace (data : Bytes) (pos : Nat) : Nat :=
  pos + ws_count (data.drop pos)

/-- Number of leading name-characters of a buffer. -/
def name_len : Bytes → Nat
  | [] => 0
  | b :: t => if is_name_char b then name_len t + 1 else 0

/-- The slice `data[a..b]` of the source. -/
def byte_slice (data : Bytes) (a b : Nat) : Bytes :=
  (data.drop a).take (b - a)

/-- Source `parse_name` (parser.rs:1177): fail at end of input or when the
first byte is not a name-start; otherwise take the maximal run of name
characters and return it with the new cursor. -/
def parse_name (data : Bytes) (pos : Nat) : Option (Bytes × Nat) :=
  if pos < data.length then
    if is_name_start (data.getD pos 0) then
      let e := pos + 1 + name_len (data.drop (pos + 1))
      some (byte_slice data pos e, e)
    else none
  else none

/-- Source `expect_char` (parser.rs:1194). -/
def expect_char (data : Bytes) (pos : Nat) (c : Nat) : Option Nat :=
  if pos < data.length ∧ data.getD pos 0 = c then some (pos + 1) else none

/-- Source `expect_sequence` (parser.rs:1202). -/
def expect_sequence (data : Bytes) (pos : Nat) (seq : Bytes) : Option Nat :=
  if seq.isPrefixOf (data.drop pos) then some (pos + seq.length) else none

/-- Source `starts_with` (parser.rs:962). -/
def starts_with_at (data : Bytes) (pos : Nat) (pat : Bytes) : Bool :=
  pat.isPrefixOf (data.drop pos)

/-- Number of bytes of a buffer before the first occurrence of `q`. -/
def scan_len (q : Nat) : Bytes → Nat
  | [] => 0
  | b :: t => if b = q then 0 else scan_len q t + 1

/-- The quoted-value scanner shared by the XML declaration and the
attribute parser (parser.rs:983 and 1129): the cursor sits on the opening
quote, which must be `"` or an apostrophe; scan to the matching quote,
failing at end of input; return the bytes between the quotes and the
cursor one past the closing quote. -/
def parse_quoted (data : Bytes) (pos : Nat) : Option (Bytes × Nat) :=
  if pos < data.length then
    let q := data.getD pos 0
    if q = 34 ∨ q = 39 then
      let e := pos + 1 + scan_len q (data.drop (pos + 1))
      if e < data.length then some (byte_slice data (pos + 1) e, e + 1) else none
    else none
  else none

/-- Attach a node as last child of the innermost open element, or to the
document's top-level list when no element is open: source `attach_child`
(doc.rs:394) called with `self.stack.last()`. -/
def attachNode (st : PSt) (n : XNode) : PSt :=
  match st.stack with
  | [] => { st with rootAcc := st.rootAcc ++ [n] }
  | f :: rest => { st with stack := { f with children := f.children ++ [n] } :: rest }

/-- Source `parse_attributes` (parser.rs:1113).  Fuel-based: each loop
iteration of the source consumes at least four bytes (name, `=`, the two
quotes), so the fuel `data.length + 1` supplied at the call site is never
exhausted. -/
def parse_attributes (data : Bytes) :
    Nat → Nat → List (Bytes × Bytes) → Option (List (Bytes × Bytes) × Nat)
  | 0, _, _ => none
  | fuel + 1, pos, acc =>
    let p := skip_whitespace data pos
    if p < data.length then
      let b := data.getD p 0
      if b = 47 ∨ b = 62 then some (acc, p)
      else
        match parse_name data p with
        | none => none
        | some (name, p1) =>
          let p1' := skip_whitespace data p1
          match expect_char data p1' 61 with
          | none => none
          | some p2 =>
            let p2' := skip_whitespace data p2
            match parse_quoted data p2' with
            | none => none
            | some (v, p3) =>
              match decode_entities v with
              | none => none
              | some dv => parse_attributes data fuel p3 (acc ++ [(name, dv)])
    else none

/-- Source `parse_start_element` (parser.rs:1008): `<`, name, attributes,
then `/>` (self-closing) or `>`.  With no open element this is a top-level
element: `root_count` is incremented and a second top-level element is a
hard failure, checked before the element is linked.  A non-self-closing
element is pushed onto the open-element stack. -/
def parse_start_element (data : Bytes) (st : PSt) : Option PSt :=
  (expect_char data st.pos 60).bind (fun p0 =>
    (parse_name data p0).bind (fun np =>
      (parse_attributes data (data.length + 1) np.2 []).bind (fun ap =>
        (if ap.2 < data.length && data.getD ap.2 0 == 47 then
           expect_char data (ap.2 + 1) 62
         else expect_char data ap.2 62).bind (fun p3 =>
          if st.stack.isEmpty then
            if st.rootCount + 1 > 1 then none
            else
              if ap.2 < data.length && data.getD ap.2 0 == 47 then
                some { st with
                  pos := p3
                  rootCount := st.rootCount + 1
                  rootAcc := st.rootAcc ++ [XNode.element np.1 ap.1 []] }
              else
                some { st with
                  pos := p3
                  rootCount := st.rootCount + 1
                  stack := [⟨np.1, ap.1, []⟩] }
          else
            if ap.2 < data.length && data.getD ap.2 0 == 47 then
              some (attachNode { st with pos := p3 } (XNode.element np.1 ap.1 []))
            else
              some { st with pos := p3, stack := ⟨np.1, ap.1, []⟩ :: st.stack }))))

/-- Source `parse_end_element` (parser.rs:1042): `</`, name, optional
whitespace, `>`; pop the innermost open element (failure when none is
open) and fail unless the tag name equals the popped element's name
byte-for-byte.  On success the closed element is linked to its parent
(this is where the model's deferred linking happens). -/
def parse_end_element (data : Bytes) (st : PSt) : Option PSt :=
  (expect_sequence data st.pos [60, 47]).bind (fun p0 =>
    (parse_name data p0).bind (fun np =>
      (expect_char data (skip_whitespace data np.2) 62).bind (fun p2 =>
        match st.stack with
        | [] => none
        | f :: rest =>
          if f.name = np.1 then
            some (attachNode { st with pos := p2, stack := rest }
              (XNode.element f.name f.attrs f.children))
          else none)))

/-- Source `parse_text_node` (parser.rs:1057): scan to the next `<` (or end
of input), decode entities, and attach a text node unless the decoded
content is empty. -/
def parse_text_node (data : Bytes) (st : PSt) : Option PSt :=
  let e := st.pos + scan_len 60 (data.drop st.pos)
  let text := byte_slice data st.pos e
  if text = [] then some { st with pos := e }
  else
    match decode_entities text with
    | none => none
    | some d =>
      if d = [] then some { st with pos := e }
      else some (attachNode { st with pos := e } (XNode.text d))

/-- Cursor advance of the comment scanner: the source loop runs while at
least three bytes remain at the cursor and they are not `-->`. -/
def comment_scan_len : Bytes → Nat
  | a :: b :: c :: t => if a = 45 ∧ b = 45 ∧ c = 62 then 0
                        else comment_scan_len (b :: c :: t) + 1
  | _ => 0

/-- Source `parse_comment` (parser.rs:1080): `<!--`, verbatim scan to
`-->` (no entity decoding), failing when the terminator is missing; the
comment node is attached like any other child. -/
def parse_comment (data : Bytes) (st : PSt) : Option PSt :=
  match expect_sequence data st.pos [60, 33, 45, 45] with
  | none => none
  | some p0 =>
    let e := p0 + comment_scan_len (data.drop p0)
    if e + 2 < data.length then
      some (attachNode { st with pos := e + 3 } (XNode.comment (byte_slice data p0 e)))
    else none

/-- Cursor advance of the processing-instruction scanner: the source loop
runs while at least two bytes remain at the cursor and they are not
`?>`. -/
def pi_scan_len : Bytes → Nat
  | a :: b :: t => if a = 63 ∧ b = 62 then 0 else pi_scan_len (b :: t) + 1
  | _ => 0

/-- Source `parse_processing_instruction` (parser.rs:1101): `<?`, scan to
`?>`, failing when the terminator is missing.  The content is discarded:
no node is attached. -/
def parse_processing_instruction (data : Bytes) (st : PSt) : Option PSt :=
  match expect_sequence data st.pos [60, 63] with
  | none => none
  | some p0 =>
    let e := p0 + pi_scan_len (data.drop p0)
    if e + 1 < data.length then some { st with pos := e + 2 } else none

/-- Pseudo-attribute loop of the XML declaration (parser.rs:972).
Fuel-based: each iteration of the source consumes at least four bytes, so
the fuel `data.length + 1` supplied by `parse_xml_declaration` is never
exhausted. -/
def parse_decl_loop (data : Bytes) : Nat → PSt → Option PSt
  | 0, _ => none
  | fuel + 1, st =>
    let p := skip_whitespace data st.pos
    if starts_with_at data p [63, 62] then some { st with pos := p + 2 }
    else
      match parse_name data p with
      | none => none
      | some (name, p1) =>
        let p1' := skip_whitespace data p1
        match expect_char data p1' 61 with
        | none => none
        | some p2 =>
          let p2' := skip_whitespace data p2
          match parse_quoted data p2' with
          | none => none
          | some (v, p3) =>
            let st' : PSt :=
              if name = [118, 101, 114, 115, 105, 111, 110] then
                { st with pos := p3, version := some v }      -- "version"
              else if name = [101, 110, 99, 111, 100, 105, 110, 103] then
                { st with pos := p3, encoding := some v }     -- "encoding"
              else { st with pos := p3 }
            parse_decl_loop data fuel st'

/-- Source `parse_xml_declaration` (parser.rs:966): nothing to do unless
the buffer starts (at the cursor) with `<?xml`; otherwise parse
pseudo-attributes up to `?>`, recording `version` and `encoding` and
ignoring the rest. -/
def parse_xml_declaration (data : Bytes) (st : PSt) : Option PSt :=
  if starts_with_at data st.pos [60, 63, 120, 109, 108] then
    parse_decl_loop data (data.length + 1) { st with pos := st.pos + 5 }
  else some st

/-- Main dispatch loop of `parse_into` (parser.rs:930).  Fuel-based: every
iteration of the source advances the cursor by at least one byte and the
loop only continues while the cursor is inside the buffer, so the fuel
`data.length + 1` supplied by `terminal_state` is never exhausted. -/
def parse_loop (data : Bytes) : Nat → PSt → Option PSt
  | 0, _ => none
  | fuel + 1, st =>
    if st.pos < data.length then
      let p := skip_whitespace data st.pos
      if p ≥ data.length then some { st with pos := p }
      else
        let st' := { st with pos := p }
        let step :=
          if starts_with_at data p [60, 33, 45, 45] then parse_comment data st'
          else if starts_with_at data p [60, 63] then parse_processing_instruction data st'
          else if starts_with_at data p [60, 47] then parse_end_element data st'
          else if data.getD p 0 = 60 then parse_start_element data st'
          else parse_text_node data st'
        match step with
        | none => none
        | some st'' => parse_loop data fuel st''
    else some st

/-- Source `strip_utf8_bom` (parser.rs:1224). -/
def strip_utf8_bom (bytes : Bytes) : Bytes :=
  if [239, 187, 191].isPrefixOf bytes then bytes.drop 3 else bytes

/-- The state in which `parse_into` (parser.rs:916) reaches its final
check: BOM stripped, leading whitespace skipped, XML declaration parsed,
main loop run to end of input — or `none` when any step failed before end
of input. -/
def terminal_state (bytes : Bytes) : Option PSt :=
  let data := strip_utf8_bom bytes
  let st0 : PSt := { pos := skip_whitespace data 0, stack := [], rootAcc := [],
                     rootCount := 0, version := none, encoding := none }
  match parse_xml_declaration data st0 with
  | none => none
  | some st1 => parse_loop data (data.length + 1) st1

/-- Source `parse_into` (parser.rs:916): the parse succeeds exactly when
the terminal state exists, produced exactly one top-level element and has
no open element left (parser.rs:949). -/
def parse_into (bytes : Bytes) : Option PSt :=
  match terminal_state bytes with
  | none => none
  | some st => if st.rootCount == 1 && st.stack.isEmpty then some st else none

/-- Source `parse_document_from_bytes` (parser.rs:894): a fresh document
gets the caller's URL and encoding (`XmlDocument::new`), the parser then
overwrites version/encoding from the XML declaration; on failure the
document is dropped and nothing of it escapes (`Err` maps to `none`). -/
def parse_document_from_bytes (bytes : Bytes) (options : Int)
    (url enc : Option Bytes) : Option DocModel :=
  match parse_into bytes with
  | none => none
  | some st =>
    some { version := st.version,
           encoding := match st.encoding with | some e => some e | none => enc,
           url := url,
           children := st.rootAcc,
           parseFlags := options }

-- Sanity checks on the engine.
example : (parse_into [60, 97, 47, 62]).isSome = true := by decide  -- <a/>
example : parse_into [60, 97, 47, 62, 60, 98, 47, 62] = none := by rfl  -- <a/><b/>
example : parse_into [60, 97, 62, 60, 47, 98, 62] = none := by rfl  -- <a></b>
example :  -- <a>x</a> gives one root element with one text child
    (parse_document_from_bytes [60, 97, 62, 120, 60, 47, 97, 62] 0 none none).map
      DocModel.children
      = some [XNode.element [97] [] [XNode.text [120]]] := by rfl

/-! ### Memory entry points, from `parser.rs`

A possibly-null C buffer is an `Option Bytes`: `none` is the null pointer,
`some buf` is the readable memory starting at the pointer (for the
null-terminated reads, `buf` is the memory up to and beyond the first NUL
byte).  `size` keeps the C `c_int` signedness as `Int`. -/

/-- The bytes `xmlReadMemory` (parser.rs:80) actually hands to the engine:
with `size = 0` and a non-null buffer it takes `strlen(buffer)` bytes, that
is, the bytes before the first NUL; with `size > 0` it takes `size` bytes
(the caller guarantees that many are readable). -/
def effective_bytes (buffer : Option Bytes) (size : Int) : Bytes :=
  if size = 0 then
    match buffer with
    | none => []
    | some buf => buf.takeWhile (fun b => b ≠ 0)
  else (buffer.getD []).take size.toNat

/-- Source `xmlReadMemory` (parser.rs:69): reject a negative size or a null
buffer with positive size, then parse the effective bytes; `Err` surfaces
as the null document (`none`). -/
def xmlReadMemory (buffer : Option Bytes) (size : Int) (url enc : Option Bytes)
    (options : Int) : Option DocModel :=
  if size < 0 ∨ (size > 0 ∧ buffer = none) then none
  else parse_document_from_bytes (effective_bytes buffer size) options url enc

/-- The fields of `xmlParserCtxt` (parser.rs:21) that `xmlParseDocument`
reads. -/
structure CtxtModel where
  input : Option Bytes
  input_size : Int
  base_url : Option Bytes
  encoding : Option Bytes
  options : Int

/-- Source `xmlParseDocument` (parser.rs:802): negative size fails; size
zero reads the input as a null-terminated string (empty when the input
pointer is null); positive size with a null input fails; otherwise exactly
`input_size` bytes are parsed.  Returns the C status (`0` success, `-1`
failure) and the document stored into the context on success. -/
def xmlParseDocument (c : CtxtModel) : Int × Option DocModel :=
  if c.input_size < 0 then (-1, none)
  else
    let bytes? : Option Bytes :=
      if c.input_size = 0 then
        some (match c.input with
              | none => []
              | some buf => buf.takeWhile (fun b => b ≠ 0))
      else
        match c.input with
        | none => none
        | some buf => some (buf.take c.input_size.toNat)
    match bytes? with
    | none => (-1, none)
    | some bytes =>
      match parse_document_from_bytes bytes c.options c.base_url c.encoding with
      | some d => (0, some d)
      | none => (-1, none)

/-! ### The push parser, from `parser.rs`

`PUSH_PARSER_STATES` keys one `PushParserState` per context address; a
context's entry is an `Option PushSt` (`none` when the map holds no entry —
before creation, or after the entry is cleared on termination or release).
-/

/-- Source `PushParserState` (parser.rs:52). -/
structure PushSt where
  buffer : Bytes
  stopped : Bool
  terminated : Bool
deriving DecidableEq, Repr

/-- The upper bound `c_int::MAX` checked before handing the accumulated
buffer to `xmlCtxtReadMemory` (parser.rs:188). -/
def cIntMax : Nat := 2147483647

/-- Source `xmlParseChunk` (parser.rs:143) on one context's state entry.
Returns the C status, the context's state entry afterwards, and the
document produced on successful termination.

Step by step, as in the source: a missing entry fails with `-1`; a stopped
entry fails with `-1` leaving the entry untouched; otherwise the chunk is
appended to the buffer; without `terminate` that is all (`status 0`); with
`terminate` the entry is marked terminated, the whole accumulated buffer is
taken and run once through the engine via `xmlCtxtReadMemory`, and the
entry is removed from the table (`clear_push_state`) in every outcome —
also when the buffer exceeds `c_int::MAX`, which fails with `-1` without
running the engine.

The source passes the taken buffer's pointer with its length to
`xmlCtxtReadMemory`; for an empty accumulated buffer that pointer is the
dangling pointer of an empty `Vec` with size 0, which `xmlParseDocument`
then reads with `strlen` — undefined behaviour in the source.  The model
parses the buffer itself; theorems about termination assume the
accumulated buffer nonempty to stay off that case. -/
def xmlParseChunk (entry : Option PushSt) (chunk : Bytes) (terminate : Bool)
    (url enc : Option Bytes) (options : Int) :
    Int × Option PushSt × Option DocModel :=
  match entry with
  | none => (-1, none, none)
  | some st =>
    if st.stopped then (-1, some st, none)
    else
      let buf := st.buffer ++ chunk
      if terminate then
        if buf.length > cIntMax then (-1, none, none)
        else
          match parse_document_from_bytes buf options url enc with
          | some d => (0, none, some d)
          | none => (-1, none, none)
      else (0, some { st with buffer := buf }, none)

/-- Source `xmlStopParser` (parser.rs:220) on one context's state entry:
mark it stopped when present. -/
def xmlStopParser (entry : Option PushSt) : Option PushSt :=
  match entry with
  | none => none
  | some st => some { st with stopped := true }

/-- Source `xmlResumeParser` (parser.rs:244) on one context's state entry:
a missing entry or a terminated one fails with `-1`; otherwise the stop
flag is cleared and the call succeeds with `0`. -/
def xmlResumeParser (entry : Option PushSt) : Int × Option PushSt :=
  match entry with
  | none => (-1, none)
  | some st =>
    if st.terminated then (-1, some st)
    else (0, some { st with stopped := false })

-- Sanity checks on the push parser.
example :  -- feed("<a>", terminate = false) then feed("</a>", terminate = true)
    (xmlParseChunk
      (xmlParseChunk (some ⟨[], false, false⟩) [60, 97, 62] false none none 0).2.1
      [60, 47, 97, 62] true none none 0).1 = 0 := by rfl

/-! ### Supporting lemmas about the entity decoder -/

theorem split_at_semi_len :
    ∀ (l e r : Bytes), split_at_semi l = some (e, r) → r.length < l.length := by
  intro l
  induction l with
  | nil => intro e r h; simp [split_at_semi] at h
  | cons b t ih =>
    intro e r h
    by_cases hb : b = 59
    · simp only [split_at_semi, if_pos hb] at h
      simp only [Option.some.injEq, Prod.mk.injEq] at h
      obtain ⟨he, hr⟩ := h
      subst hr
      simp only [List.length_cons]
      omega
    · simp only [split_at_semi, if_neg hb] at h
      cases hs : split_at_semi t with
      | none => rw [hs] at h; cases h
      | some pr =>
        rw [hs] at h
        simp only [Option.map_some', Option.some.injEq, Prod.mk.injEq] at h
        obtain ⟨he, hr⟩ := h
        subst hr
        have := ih pr.1 pr.2 (by rw [hs])
        simp only [List.length_cons]
        omega

theorem split_at_semi_append :
    ∀ (e r : Bytes), 59 ∉ e → split_at_semi (e ++ 59 :: r) = some (e, r) := by
  intro e
  induction e with
  | nil => intro r _; simp [split_at_semi]
  | cons b t ih =>
    intro r h
    have hb : b ≠ 59 := by
      intro hb; exact h (hb ▸ List.mem_cons_self b t)
    have ht : 59 ∉ t := fun hm => h (List.mem_cons_of_mem b hm)
    simp only [List.cons_append, split_at_semi, if_neg hb, List.append_eq, ih r ht,
      Option.map_some']

theorem decodeF_mono :
    ∀ (f₁ f₂ : Nat) (l : Bytes), l.length < f₁ → l.length < f₂ →
      decodeF f₁ l = decodeF f₂ l := by
  intro f₁
  induction f₁ with
  | zero => intro f₂ l h₁; omega
  | succ n ih =>
    intro f₂ l h₁ h₂
    cases f₂ with
    | zero => omega
    | succ m =>
      cases l with
      | nil => rfl
      | cons b rest =>
        have hrest : rest.length < n := by
          simp only [List.length_cons] at h₁; omega
        have hrestm : rest.length < m := by
          simp only [List.length_cons] at h₂; omega
        simp only [decodeF]
        by_cases hb : b = 38
        · simp only [if_pos hb]
          cases hs : split_at_semi rest with
          | none => rfl
          | some pr =>
            have hlen := split_at_semi_len rest pr.1 pr.2 (by rw [hs])
            simp only [Option.some_bind]
            rw [ih m pr.2 (by omega) (by omega)]
        · simp only [if_neg hb]
          rw [ih m rest hrest hrestm]

/-- Any sufficient fuel computes `decode_entities`. -/
theorem decodeF_eq_decode (f : Nat) (l : Bytes) (hf : l.length < f) :
    decodeF f l = decode_entities l :=
  decodeF_mono f (l.length + 1) l hf (Nat.lt_succ_self _)

/-- One decoding step at a reference `&ent;`: the branch structure of the
source's `&` case, with the tail decoded independently. -/
theorem decode_entities_amp_step (ent rest : Bytes) (h : 59 ∉ ent) :
    decode_entities (38 :: ent ++ 59 :: rest)
      = if ent = [] then none
        else if ent.getD 0 0 = 35 then
          (numeric_entity_value ent).bind (fun cp =>
            (push_codepoint cp).bind (fun enc =>
              (decode_entities rest).map (fun out => enc ++ out)))
        else (decode_entities rest).map (fun out => named_entity_bytes ent ++ out) := by
  have hsplit := split_at_semi_append ent rest h
  show decodeF ((38 :: ent ++ 59 :: rest).length + 1) (38 :: ent ++ 59 :: rest) = _
  have hlt : rest.length < (38 :: ent ++ 59 :: rest).length := by
    simp only [List.length_cons, List.length_append]
    omega
  have h38 : ((38 : Nat) = 38) = True := by simp
  simp only [decodeF, h38, if_true, List.append_eq, hsplit, Option.some_bind,
    decodeF_eq_decode ((38 :: ent ++ 59 :: rest).length) rest hlt]

/-- A literal byte other than `&` is copied and decoding continues. -/
theorem decode_entities_cons_lit (b : Nat) (l : Bytes) (hb : b ≠ 38) :
    decode_entities (b :: l) = (decode_entities l).map (fun out => b :: out) := by
  show decodeF ((b :: l).length + 1) (b :: l) = _
  simp only [List.length_cons, decodeF, if_neg hb]
  rw [decodeF_eq_decode (l.length + 1) l (Nat.lt_succ_self _)]

/-! ### Bridging lemmas for the parse entry points -/

theorem parse_into_isSome_iff (bytes : Bytes) :
    (parse_into bytes).isSome = true ↔
      ∃ st, terminal_state bytes = some st ∧ st.rootCount = 1 ∧ st.stack = [] := by
  unfold parse_into
  cases h : terminal_state bytes with
  | none => simp
  | some st =>
    by_cases h1 : st.rootCount = 1
    · by_cases h2 : st.stack = []
      · have hc : (st.rootCount == 1 && st.stack.isEmpty) = true := by
          simp [h1, h2]
        simp [hc, h1, h2]
      · have hc : (st.rootCount == 1 && st.stack.isEmpty) = false := by
          simp [h1, List.isEmpty_iff, h2]
        simp [hc, h2]
    · have hc : (st.rootCount == 1 && st.stack.isEmpty) = false := by
        simp [h1]
      simp [hc, h1]

theorem parse_document_isSome (bytes : Bytes) (opts : Int) (url enc : Option Bytes) :
    (parse_document_from_bytes bytes opts url enc).isSome = (parse_into bytes).isSome := by
  unfold parse_document_from_bytes
  cases parse_into bytes <;> rfl

/-! ### Claim theorems -/

/-- Claim C1: the parse operation (`parse_document_from_bytes`, and
`xmlReadMemory` on top of it) returns a document exactly when the terminal
state of the engine exists (end of input was reached without a hard
failure), produced exactly one top-level element (`rootCount = 1`) and has
an empty open-element stack; in every other case the result is the failure
sentinel `none`, which carries no tree at all — the partially built
document is dropped inside `parse_document_from_bytes` and nothing of it
is reachable from a `none` result. -/
theorem C1_parse_success_iff_single_balanced_root :
    ∀ (bytes : Bytes) (opts : Int) (url enc : Option Bytes)
      (buffer : Option Bytes) (size : Int),
      ((parse_document_from_bytes bytes opts url enc).isSome = true ↔
        ∃ st, terminal_state bytes = some st ∧ st.rootCount = 1 ∧ st.stack = [])
      ∧ ((xmlReadMemory buffer size url enc opts).isSome = true ↔
          (¬(size < 0 ∨ (size > 0 ∧ buffer = none)) ∧
           ∃ st, terminal_state (effective_bytes buffer size) = some st ∧
             st.rootCount = 1 ∧ st.stack = [])) := by
  intro bytes opts url enc buffer size
  constructor
  · rw [parse_document_isSome, parse_into_isSome_iff]
  · unfold xmlReadMemory
    by_cases hg : size < 0 ∨ (size > 0 ∧ buffer = none)
    · simp [hg]
    · simp only [if_neg hg]
      rw [parse_document_isSome, parse_into_isSome_iff]
      simp [hg]

/-- Claim C2 counterexample: importing (`from_raw`) a non-null address the
registry holds no entry for does succeed, but the wrapper's metadata is
absent (`none`) rather than defaulting to empty, and the document-store
operations that need metadata — all of which go through `extras_mut`,
whose `expect` panics — fail on it instead of being well-defined.  The
`none` results below model those panics. -/
theorem C2_counterexample_import_without_entry_panics :
    (from_raw 1 regEmpty).1 = some ⟨1, none⟩ ∧
    set_version_bytes ⟨1, none⟩ [50] = none ∧
    set_encoding_bytes ⟨1, none⟩ [50] = none ∧
    clear_tree_op ⟨1, none⟩ = none :=
  ⟨rfl, rfl, rfl, rfl⟩

/-- Claim C2 (amended): for every non-null address without a registry
entry, import (`from_raw`) succeeds without signaling an error and leaves
the registry unchanged, but the resulting wrapper's metadata is absent
(`extras = none`) rather than an empty default, and every document-store
operation that needs the metadata (they all call `extras_mut`) panics on
it — modelled by `none` — rather than being well-defined. -/
theorem C2_amended_import_without_entry :
    ∀ (addr : Nat) (reg : Registry) (v : Bytes),
      addr ≠ 0 → reg addr = none →
      (from_raw addr reg).1 = some ⟨addr, none⟩ ∧
      (∀ k, (from_raw addr reg).2 k = reg k) ∧
      set_version_bytes ⟨addr, none⟩ v = none ∧
      set_encoding_bytes ⟨addr, none⟩ v = none ∧
      clear_tree_op ⟨addr, none⟩ = none := by
  intro addr reg v ha hr
  unfold from_raw
  simp only [if_neg ha]
  refine ⟨by rw [hr], ?_, rfl, rfl, rfl⟩
  intro k
  unfold regRemove
  by_cases hk : k = addr
  · subst hk; simp [hr]
  · simp [hk]

/-- Witness for the amended C2 at the concrete address 1 and the empty
registry. -/
theorem C2_amended_witness :
    (1 : Nat) ≠ 0 ∧ regEmpty 1 = none ∧
    ((from_raw 1 regEmpty).1 = some ⟨1, none⟩ ∧
     (∀ k, (from_raw 1 regEmpty).2 k = regEmpty k) ∧
     set_version_bytes ⟨1, none⟩ [50] = none ∧
     set_encoding_bytes ⟨1, none⟩ [50] = none ∧
     clear_tree_op ⟨1, none⟩ = none) :=
  ⟨by decide, rfl, C2_amended_import_without_entry 1 regEmpty [50] (by decide) rfl⟩

/-- Claim C3: export (`into_raw`, which registers the extras keyed by the
returned address) followed by import (`from_raw`) of that address yields a
wrapper carrying exactly the version, encoding and URL metadata the
document held before export. -/
theorem C3_export_import_round_trip :
    ∀ (d : XmlDocumentW) (reg : Registry) (e : XmlDocExtras),
      d.addr ≠ 0 → d.extras = some e →
      ∃ w, (from_raw (into_raw d reg).1 (into_raw d reg).2).1 = some w ∧
        w.extras.map XmlDocExtras.version = some e.version ∧
        w.extras.map XmlDocExtras.encoding = some e.encoding ∧
        w.extras.map XmlDocExtras.url = some e.url := by
  intro d reg e ha he
  refine ⟨⟨d.addr, some e⟩, ?_, rfl, rfl, rfl⟩
  unfold into_raw
  rw [he]
  unfold from_raw
  simp only [if_neg ha]
  unfold regInsert
  simp

/-- Witness for C3 at a concrete document (address 5, version `2.0`,
encoding `L1`, URL `u`) and the empty registry. -/
theorem C3_witness :
    (5 : Nat) ≠ 0 ∧
    (some ⟨some [50, 46, 48], some [76, 49], some [117]⟩ : Option XmlDocExtras)
      = some ⟨some [50, 46, 48], some [76, 49], some [117]⟩ ∧
    ∃ w, (from_raw
        (into_raw ⟨5, some ⟨some [50, 46, 48], some [76, 49], some [117]⟩⟩ regEmpty).1
        (into_raw ⟨5, some ⟨some [50, 46, 48], some [76, 49], some [117]⟩⟩ regEmpty).2).1
        = some w ∧
      w.extras.map XmlDocExtras.version = some (some [50, 46, 48]) ∧
      w.extras.map XmlDocExtras.encoding = some (some [76, 49]) ∧
      w.extras.map XmlDocExtras.url = some (some [117]) :=
  ⟨by decide, rfl,
   C3_export_import_round_trip ⟨5, some ⟨some [50, 46, 48], some [76, 49], some [117]⟩⟩
     regEmpty ⟨some [50, 46, 48], some [76, 49], some [117]⟩ (by decide) rfl⟩

/-- Claim C9: after `stop` the entry is marked stopped and every feed
fails with `-1` leaving the entry (buffer included) untouched; `resume` on
a non-terminated entry succeeds, clears the stop flag and re-enables feed
(which then appends normally); `resume` on a terminated entry — or on a
context whose entry is gone, which is how a terminated context looks in
the table — fails with `-1`. -/
theorem C9_stop_feed_resume_protocol :
    ∀ (st : PushSt) (chunk : Bytes) (terminate : Bool) (url enc : Option Bytes)
      (opts : Int),
      (xmlParseChunk (xmlStopParser (some st)) chunk terminate url enc opts
         = (-1, xmlStopParser (some st), none))
      ∧ (st.terminated = false →
           xmlResumeParser (some { st with stopped := true })
             = (0, some { st with stopped := false })
           ∧ xmlParseChunk (some { st with stopped := false }) chunk false url enc opts
             = (0, some { st with stopped := false, buffer := st.buffer ++ chunk }, none))
      ∧ (st.terminated = true → (xmlResumeParser (some st)).1 = -1)
      ∧ (xmlResumeParser none).1 = -1 := by
  intro st chunk terminate url enc opts
  refine ⟨?_, ?_, ?_, rfl⟩
  · simp [xmlStopParser, xmlParseChunk]
  · intro ht
    constructor
    · simp [xmlResumeParser, ht]
    · simp [xmlParseChunk]
  · intro ht
    simp [xmlResumeParser, ht]

/-- Witness for C9 at concrete entries: a fresh entry for the resume and
feed parts, a terminated entry for the failing resume. -/
theorem C9_witness :
    ((⟨[], false, false⟩ : PushSt).terminated = false ∧
      xmlResumeParser (some ⟨[], true, false⟩) = (0, some ⟨[], false, false⟩)) ∧
    ((⟨[], false, true⟩ : PushSt).terminated = true ∧
      (xmlResumeParser (some ⟨[], false, true⟩)).1 = -1) :=
  ⟨⟨rfl, ((C9_stop_feed_resume_protocol ⟨[], false, false⟩ [] false none none 0).2.1 rfl).1⟩,
   ⟨rfl, (C9_stop_feed_resume_protocol ⟨[], false, true⟩ [] false none none 0).2.2.1 rfl⟩⟩

/-- Claim C10: with `size = 0` and a non-null buffer, `xmlReadMemory`
parses the buffer's bytes up to its first NUL (C `strlen` semantics), and
`xmlParseDocument` does the same when the context's `input_size` is 0 and
its `input` is non-null.  The final conjunct shows this is not the empty
input: a buffer whose NUL-terminated prefix is `<a/>` parses
successfully. -/
theorem C10_size_zero_reads_to_first_nul :
    ∀ (buf : Bytes) (url enc : Option Bytes) (opts : Int) (c : CtxtModel),
      (xmlReadMemory (some buf) 0 url enc opts
         = parse_document_from_bytes (buf.takeWhile (fun b => b ≠ 0)) opts url enc)
      ∧ (c.input = some buf → c.input_size = 0 →
          xmlParseDocument c
            = match parse_document_from_bytes (buf.takeWhile (fun b => b ≠ 0))
                c.options c.base_url c.encoding with
              | some d => (0, some d)
              | none => (-1, none))
      ∧ (xmlReadMemory (some [60, 97, 47, 62, 0, 60, 98, 47, 62]) 0 none none 0).isSome
          = true := by
  intro buf url enc opts c
  refine ⟨?_, ?_, by rfl⟩
  · unfold xmlReadMemory effective_bytes
    norm_num
  · intro h1 h2
    unfold xmlParseDocument
    rw [h1, h2]
    norm_num

/-- Witness for C10 at a concrete context holding `<a/>` followed by a NUL
and trailing garbage. -/
theorem C10_witness :
    (CtxtModel.mk (some [60, 97, 47, 62, 0, 60, 98, 47, 62]) 0 none none 0).input
        = some [60, 97, 47, 62, 0, 60, 98, 47, 62] ∧
    (CtxtModel.mk (some [60, 97, 47, 62, 0, 60, 98, 47, 62]) 0 none none 0).input_size = 0 ∧
    xmlParseDocument (CtxtModel.mk (some [60, 97, 47, 62, 0, 60, 98, 47, 62]) 0 none none 0)
      = match parse_document_from_bytes
          ([60, 97, 47, 62, 0, 60, 98, 47, 62].takeWhile (fun b => b ≠ 0)) 0 none none with
        | some d => (0, some d)
        | none => (-1, none) :=
  ⟨rfl, rfl,
   (C10_size_zero_reads_to_first_nul [60, 97, 47, 62, 0, 60, 98, 47, 62] none none 0
     (CtxtModel.mk (some [60, 97, 47, 62, 0, 60, 98, 47, 62]) 0 none none 0)).2.1 rfl rfl⟩

theorem attachNode_stack_names (st : PSt) (n : XNode) :
    (attachNode st n).stack.map Frame.name = st.stack.map Frame.name := by
  unfold attachNode
  cases st.stack <;> rfl

/-- Claim C6: whenever a start-tag is parsed with no element open while a
top-level element already exists (`rootCount` at least 1), the parse step
fails — the second top-level element is a hard failure checked before the
element is linked; and in particular the whole parse of `<a/><b/>`
fails. -/
theorem C6_second_top_level_element_fails :
    (∀ (data : Bytes) (st : PSt), st.stack = [] → 1 ≤ st.rootCount →
      parse_start_element data st = none)
    ∧ parse_into [60, 97, 47, 62, 60, 98, 47, 62] = none := by
  constructor
  · intro data st hstk hrc
    have hempty : st.stack.isEmpty = true := by rw [hstk]; rfl
    have hroot : st.rootCount + 1 > 1 := by omega
    unfold parse_start_element
    cases hec : expect_char data st.pos 60 with
    | none => rfl
    | some p0 =>
      simp only [Option.some_bind]
      cases hpn : parse_name data p0 with
      | none => rfl
      | some np =>
        simp only [Option.some_bind]
        cases hpa : parse_attributes data (data.length + 1) np.2 [] with
        | none => rfl
        | some ap =>
          simp only [Option.some_bind]
          by_cases hc : (ap.2 < data.length && data.getD ap.2 0 == 47) = true
          · simp only [hc, if_true]
            cases expect_char data (ap.2 + 1) 62 with
            | none => rfl
            | some p3 => simp [hempty, hroot]
          · simp only [Bool.not_eq_true] at hc
            simp only [hc, Bool.false_eq_true, if_false]
            cases expect_char data ap.2 62 with
            | none => rfl
            | some p3 => simp [hempty, hroot]
  · rfl

/-- Witness for C6: a start-tag `<b/>` at cursor 0 with no open element
after one root element was already produced. -/
theorem C6_witness :
    (PSt.mk 0 [] [] 1 none none).stack = [] ∧
    1 ≤ (PSt.mk 0 [] [] 1 none none).rootCount ∧
    parse_start_element [60, 98, 47, 62] (PSt.mk 0 [] [] 1 none none) = none :=
  ⟨rfl, by decide,
   (C6_second_top_level_element_fails).1 [60, 98, 47, 62] (PSt.mk 0 [] [] 1 none none)
     rfl (by decide)⟩

/-- Claim C7: an end-tag with no open element fails; a successful end-tag
step always pops the innermost open element, its parsed tag name is
byte-for-byte the popped element's name, and the remaining open elements
are exactly the previous stack minus its head (compared by name, since the
model's frames also carry the children accumulated so far); and in
particular the whole parse of `<a></b>` fails. -/
theorem C7_end_tag_pops_and_must_match :
    (∀ (data : Bytes) (st : PSt), st.stack = [] → parse_end_element data st = none)
    ∧ (∀ (data : Bytes) (st st' : PSt), parse_end_element data st = some st' →
        ∃ f rest p0 p1, st.stack = f :: rest ∧
          expect_sequence data st.pos [60, 47] = some p0 ∧
          parse_name data p0 = some (f.name, p1) ∧
          st'.stack.map Frame.name = rest.map Frame.name)
    ∧ parse_into [60, 97, 62, 60, 47, 98, 62] = none := by
  refine ⟨?_, ?_, rfl⟩
  · intro data st hstk
    unfold parse_end_element
    cases expect_sequence data st.pos [60, 47] with
    | none => rfl
    | some p0 =>
      simp only [Option.some_bind]
      cases parse_name data p0 with
      | none => rfl
      | some np =>
        simp only [Option.some_bind]
        cases expect_char data (skip_whitespace data np.2) 62 with
        | none => rfl
        | some p2 =>
          simp only [Option.some_bind]
          rw [hstk]
  · intro data st st' h
    unfold parse_end_element at h
    cases hseq : expect_sequence data st.pos [60, 47] with
    | none => rw [hseq] at h; cases h
    | some p0 =>
      rw [hseq] at h
      simp only [Option.some_bind] at h
      cases hname : parse_name data p0 with
      | none => rw [hname] at h; cases h
      | some np =>
        rw [hname] at h
        simp only [Option.some_bind] at h
        cases hchar : expect_char data (skip_whitespace data np.2) 62 with
        | none => rw [hchar] at h; cases h
        | some p2 =>
          rw [hchar] at h
          simp only [Option.some_bind] at h
          cases hstk : st.stack with
          | nil =>
            simp only [hstk] at h
            cases h
          | cons f rest =>
            simp only [hstk] at h
            by_cases hn : f.name = np.1
            · rw [if_pos hn] at h
              cases h
              refine ⟨f, rest, p0, np.2, rfl, rfl, ?_, ?_⟩
              · rw [hn]
                exact hname
              · rw [attachNode_stack_names]
            · rw [if_neg hn] at h
              cases h

/-- Witness for C7: the empty-stack part at a concrete state, and the
success part at the end-tag `</a>` closing an open `a` element. -/
theorem C7_witness :
    ((PSt.mk 0 [] [] 1 none none).stack = [] ∧
      parse_end_element [60, 47, 97, 62] (PSt.mk 0 [] [] 1 none none) = none) ∧
    (parse_end_element [60, 47, 97, 62] (PSt.mk 0 [⟨[97], [], []⟩] [] 1 none none)
        = some (PSt.mk 4 [] [XNode.element [97] [] []] 1 none none) ∧
      ∃ f rest p0 p1,
        (PSt.mk 0 [⟨[97], [], []⟩] [] 1 none none).stack = f :: rest ∧
        expect_sequence [60, 47, 97, 62] 0 [60, 47] = some p0 ∧
        parse_name [60, 47, 97, 62] p0 = some (f.name, p1) ∧
        (PSt.mk 4 [] [XNode.element [97] [] []] 1 none none).stack.map Frame.name
          = rest.map Frame.name) :=
  ⟨⟨rfl, (C7_end_tag_pops_and_must_match).1 [60, 47, 97, 62] (PSt.mk 0 [] [] 1 none none) rfl⟩,
   ⟨rfl, (C7_end_tag_pops_and_must_match).2.1 [60, 47, 97, 62]
      (PSt.mk 0 [⟨[97], [], []⟩] [] 1 none none)
      (PSt.mk 4 [] [XNode.element [97] [] []] 1 none none) rfl⟩⟩

/-! ### Digit-string valuation lemmas

`spec_is_hex_digit` and `spec_hex_val` are specification-side notions (the
claim's "hexadecimal digits, case-insensitive"); `Nat.ofDigits` provides
the standard positional value of a digit string, independent of the
parser's accumulator fold. -/

theorem digit_val_dec (b : Nat) (h : 48 ≤ b ∧ b ≤ 57) :
    digit_val 10 b = some (b - 48) := by
  unfold digit_val
  rw [if_pos h, if_pos (by omega)]

theorem digit_val_hex (b : Nat) (h : spec_is_hex_digit b = true) :
    digit_val 16 b = some (spec_hex_val b) := by
  unfold spec_is_hex_digit at h
  simp only [Bool.or_eq_true, Bool.and_eq_true, decide_eq_true_eq] at h
  unfold digit_val spec_hex_val
  rcases h with (h | h) | h <;> split_ifs <;>
    first
    | rfl
    | (exfalso; omega)

theorem parse_digits_spec (radix : Nat) (dval : Nat → Nat) :
    ∀ (ds : Bytes) (acc : Nat),
      (∀ b ∈ ds, digit_val radix b = some (dval b)) →
      parse_digits radix ds acc
        = some (acc * radix ^ ds.length + Nat.ofDigits radix ((ds.map dval).reverse)) := by
  intro ds
  induction ds with
  | nil => intro acc _; simp [parse_digits]
  | cons b t ih =>
    intro acc h
    have hb := h b (List.mem_cons_self b t)
    have ht : ∀ x ∈ t, digit_val radix x = some (dval x) :=
      fun x hx => h x (List.mem_cons_of_mem b hx)
    simp only [parse_digits, hb, Option.some_bind]
    rw [ih (acc * radix + dval b) ht]
    congr 1
    rw [List.map_cons, List.reverse_cons, Nat.ofDigits_append]
    simp only [Nat.ofDigits_singleton, List.length_reverse, List.length_map,
      List.length_cons, pow_succ]
    ring

theorem parse_u32_digits (radix : Nat) (dval : Nat → Nat) (ds : Bytes)
    (hne : ds ≠ []) (hd : ∀ b ∈ ds, digit_val radix b = some (dval b))
    (hplus : ds.getD 0 0 ≠ 43) :
    parse_u32 radix ds
      = if Nat.ofDigits radix ((ds.map dval).reverse) < 4294967296
        then some (Nat.ofDigits radix ((ds.map dval).reverse)) else none := by
  obtain ⟨b, t, rfl⟩ : ∃ b t, ds = b :: t := by
    cases ds with
    | nil => exact absurd rfl hne
    | cons b t => exact ⟨b, t, rfl⟩
  have hb43 : b ≠ 43 := by simpa using hplus
  unfold parse_u32
  simp only [if_neg hb43]
  rw [if_neg (by simp)]
  rw [parse_digits_spec radix dval (b :: t) 0 hd]
  simp [Option.some_bind]

theorem numeric_entity_value_dec (ds : Bytes) (hne : ds ≠ [])
    (hdig : ∀ b ∈ ds, 48 ≤ b ∧ b ≤ 57) :
    numeric_entity_value (35 :: ds)
      = if Nat.ofDigits 10 ((ds.map (fun b => b - 48)).reverse) < 4294967296
        then some (Nat.ofDigits 10 ((ds.map (fun b => b - 48)).reverse)) else none := by
  obtain ⟨d, t, rfl⟩ : ∃ d t, ds = d :: t := by
    cases ds with
    | nil => exact absurd rfl hne
    | cons d t => exact ⟨d, t, rfl⟩
  have hd := hdig d (List.mem_cons_self d t)
  unfold numeric_entity_value
  rw [if_neg (by
    intro hcontra
    rcases hcontra with ⟨_, hm⟩
    simp only [List.getD_cons_succ, List.getD_cons_zero] at hm
    omega)]
  simp only [List.drop_succ_cons, List.drop_zero]
  exact parse_u32_digits 10 (fun b => b - 48) (d :: t) (by simp)
    (fun b hb => digit_val_dec b (hdig b hb)) (by simp; omega)

theorem numeric_entity_value_hex (m : Nat) (ds : Bytes) (hm : m = 120 ∨ m = 88)
    (hne : ds ≠ []) (hdig : ∀ b ∈ ds, spec_is_hex_digit b = true) :
    numeric_entity_value (35 :: m :: ds)
      = if Nat.ofDigits 16 ((ds.map spec_hex_val).reverse) < 4294967296
        then some (Nat.ofDigits 16 ((ds.map spec_hex_val).reverse)) else none := by
  obtain ⟨d, t, rfl⟩ : ∃ d t, ds = d :: t := by
    cases ds with
    | nil => exact absurd rfl hne
    | cons d t => exact ⟨d, t, rfl⟩
  have hd := hdig d (List.mem_cons_self d t)
  unfold numeric_entity_value
  rw [if_pos (by
    refine ⟨by simp, ?_⟩
    simp only [List.getD_cons_succ, List.getD_cons_zero]
    exact hm)]
  simp only [List.drop_succ_cons, List.drop_zero]
  refine parse_u32_digits 16 spec_hex_val (d :: t) (by simp)
    (fun b hb => digit_val_hex b (hdig b hb)) ?_
  simp only [List.getD_cons_zero]
  unfold spec_is_hex_digit at hd
  simp only [Bool.or_eq_true, Bool.and_eq_true, decide_eq_true_eq] at hd
  omega

/-- Claim C4: entity decoding maps the five predefined references to their
single bytes; a decimal reference `&#NNN;` and a hexadecimal reference
`&#xHH;` (marker `x` or `X`, digits of either case valued by the
specification-side `spec_hex_val`) decode to the UTF-8 bytes of the code
point whose value is the standard positional value (`Nat.ofDigits`) of the
digit string; `&#65;` and `&#x41;` both decode to `A` (byte 65); and a
numeric reference whose body does not parse or names an invalid scalar
makes the whole decode — and, per the final conjunct, the whole parse —
fail. -/
theorem C4_numeric_and_named_entity_decoding :
    (decode_entities [38, 108, 116, 59] = some [60]
     ∧ decode_entities [38, 103, 116, 59] = some [62]
     ∧ decode_entities [38, 97, 109, 112, 59] = some [38]
     ∧ decode_entities [38, 97, 112, 111, 115, 59] = some [39]
     ∧ decode_entities [38, 113, 117, 111, 116, 59] = some [34])
    ∧ (decode_entities [38, 35, 54, 53, 59] = some [65]
       ∧ decode_entities [38, 35, 120, 52, 49, 59] = some [65])
    ∧ (∀ (ds rest : Bytes), ds ≠ [] → (∀ b ∈ ds, 48 ≤ b ∧ b ≤ 57) →
        Nat.ofDigits 10 ((ds.map (fun b => b - 48)).reverse) < 4294967296 →
        is_valid_scalar (Nat.ofDigits 10 ((ds.map (fun b => b - 48)).reverse)) = true →
        decode_entities (38 :: 35 :: ds ++ 59 :: rest)
          = (decode_entities rest).map
              (fun out =>
                utf8_bytes (Nat.ofDigits 10 ((ds.map (fun b => b - 48)).reverse)) ++ out))
    ∧ (∀ (m : Nat) (ds rest : Bytes), m = 120 ∨ m = 88 → ds ≠ [] →
        (∀ b ∈ ds, spec_is_hex_digit b = true) →
        Nat.ofDigits 16 ((ds.map spec_hex_val).reverse) < 4294967296 →
        is_valid_scalar (Nat.ofDigits 16 ((ds.map spec_hex_val).reverse)) = true →
        decode_entities (38 :: 35 :: m :: ds ++ 59 :: rest)
          = (decode_entities rest).map
              (fun out =>
                utf8_bytes (Nat.ofDigits 16 ((ds.map spec_hex_val).reverse)) ++ out))
    ∧ (∀ (ent rest : Bytes), 59 ∉ ent → ent ≠ [] → ent.getD 0 0 = 35 →
        (numeric_entity_value ent = none ∨
          ∃ cp, numeric_entity_value ent = some cp ∧ is_valid_scalar cp = false) →
        decode_entities (38 :: ent ++ 59 :: rest) = none)
    ∧ parse_into [60, 97, 62, 38, 35, 120, 68, 56, 48, 48, 59, 60, 47, 97, 62] = none := by
  refine ⟨⟨by decide, by decide, by decide, by decide, by decide⟩,
    ⟨by decide, by decide⟩, ?_, ?_, ?_, by rfl⟩
  · intro ds rest hne hdig hlt hvalid
    have h59 : (59 : Nat) ∉ 35 :: ds := by
      intro hm
      rcases List.mem_cons.mp hm with h | h
      · exact absurd h (by decide)
      · have := hdig 59 h; omega
    rw [decode_entities_amp_step (35 :: ds) rest h59, if_neg (by simp),
      if_pos (show (35 :: ds).getD 0 0 = 35 from rfl),
      numeric_entity_value_dec ds hne hdig, if_pos hlt]
    simp only [Option.some_bind]
    unfold push_codepoint
    rw [if_pos hvalid]
    rfl
  · intro m ds rest hm hne hdig hlt hvalid
    have h59 : (59 : Nat) ∉ 35 :: m :: ds := by
      intro hmem
      rcases List.mem_cons.mp hmem with h | h
      · exact absurd h (by decide)
      · rcases List.mem_cons.mp h with h' | h'
        · rcases hm with rfl | rfl <;> exact absurd h' (by decide)
        · have := hdig 59 h'
          unfold spec_is_hex_digit at this
          simp only [Bool.or_eq_true, Bool.and_eq_true, decide_eq_true_eq] at this
          omega
    rw [decode_entities_amp_step (35 :: m :: ds) rest h59, if_neg (by simp),
      if_pos (show (35 :: m :: ds).getD 0 0 = 35 from rfl),
      numeric_entity_value_hex m ds hm hne hdig, if_pos hlt]
    simp only [Option.some_bind]
    unfold push_codepoint
    rw [if_pos hvalid]
    rfl
  · intro ent rest h59 hne hhash hbad
    rw [decode_entities_amp_step ent rest h59, if_neg hne, if_pos hhash]
    rcases hbad with hnone | ⟨cp, hcp, hinv⟩
    · rw [hnone]; rfl
    · rw [hcp]
      simp only [Option.some_bind]
      unfold push_codepoint
      rw [if_neg (by simp [hinv])]
      rfl

/-- Witness for C4: the decimal part at the digits of `65` with an empty
tail, and the hexadecimal part at marker `X` with digits `4a`. -/
theorem C4_witness :
    (([54, 53] : Bytes) ≠ [] ∧ (∀ b ∈ ([54, 53] : Bytes), 48 ≤ b ∧ b ≤ 57) ∧
      Nat.ofDigits 10 (([54, 53].map (fun b => b - 48)).reverse) < 4294967296 ∧
      is_valid_scalar (Nat.ofDigits 10 (([54, 53].map (fun b => b - 48)).reverse)) = true ∧
      decode_entities (38 :: 35 :: [54, 53] ++ 59 :: [])
        = (decode_entities []).map
            (fun out =>
              utf8_bytes (Nat.ofDigits 10 (([54, 53].map (fun b => b - 48)).reverse)) ++ out)) ∧
    (((88 : Nat) = 120 ∨ (88 : Nat) = 88) ∧ ([52, 97] : Bytes) ≠ [] ∧
      (∀ b ∈ ([52, 97] : Bytes), spec_is_hex_digit b = true) ∧
      Nat.ofDigits 16 (([52, 97].map spec_hex_val).reverse) < 4294967296 ∧
      is_valid_scalar (Nat.ofDigits 16 (([52, 97].map spec_hex_val).reverse)) = true ∧
      decode_entities (38 :: 35 :: 88 :: [52, 97] ++ 59 :: [])
        = (decode_entities []).map
            (fun out =>
              utf8_bytes (Nat.ofDigits 16 (([52, 97].map spec_hex_val).reverse)) ++ out)) :=
  ⟨⟨by decide, by decide, by decide, by decide,
    C4_numeric_and_named_entity_decoding.2.2.1 [54, 53] [] (by decide) (by decide)
      (by decide) (by decide)⟩,
   ⟨by decide, by decide, by decide, by decide, by decide,
    C4_numeric_and_named_entity_decoding.2.2.2.1 88 [52, 97] [] (by decide) (by decide)
      (by decide) (by decide) (by decide)⟩⟩

/-- Claim C5: any named reference other than the five predefined ones is
copied to the output verbatim, `&` and `;` delimiters included, and never
fails the decode (the result is exactly the decode of the remaining input
with the literal reference prepended); in particular `&foo;` decodes to
the unchanged `&foo;`. -/
theorem C5_unknown_named_reference_passthrough :
    (∀ (ent rest : Bytes), 59 ∉ ent → ent ≠ [] → ent.getD 0 0 ≠ 35 →
      ent ≠ [108, 116] → ent ≠ [103, 116] → ent ≠ [97, 109, 112] →
      ent ≠ [97, 112, 111, 115] → ent ≠ [113, 117, 111, 116] →
      decode_entities (38 :: ent ++ 59 :: rest)
        = (decode_entities rest).map (fun out => (38 :: ent ++ [59]) ++ out))
    ∧ decode_entities [38, 102, 111, 111, 59] = some [38, 102, 111, 111, 59] := by
  constructor
  · intro ent rest h59 hne hhash h1 h2 h3 h4 h5
    rw [decode_entities_amp_step ent rest h59, if_neg hne, if_neg hhash]
    simp only [named_entity_bytes, if_neg h1, if_neg h2, if_neg h3, if_neg h4, if_neg h5]
  · decide

/-- Witness for C5 at the reference name `foo` with an empty tail. -/
theorem C5_witness :
    ((59 : Nat) ∉ ([102, 111, 111] : Bytes) ∧ ([102, 111, 111] : Bytes) ≠ [] ∧
      ([102, 111, 111] : Bytes).getD 0 0 ≠ 35) ∧
    decode_entities (38 :: [102, 111, 111] ++ 59 :: [])
      = (decode_entities []).map (fun out => (38 :: [102, 111, 111] ++ [59]) ++ out) :=
  ⟨⟨by decide, by decide, by decide⟩,
   C5_unknown_named_reference_passthrough.1 [102, 111, 111] [] (by decide) (by decide)
     (by decide) (by decide) (by decide) (by decide) (by decide) (by decide)⟩

/-- Claim C8: a terminating feed on a context that is neither stopped nor
already cleared appends the chunk, marks the entry terminated and removes
it from the table (so the context is terminal: every later feed or resume
fails), runs the engine exactly once over the whole accumulated buffer,
and returns status 0 precisely when that buffer parses; the final conjunct
is the concrete `feed("<a>")`, `feed("</a>", terminate)` example yielding
a one-element document.  The size bound is the source's `c_int::MAX` guard
and the nonemptiness assumption keeps the statement off the source's
undefined behaviour for an empty accumulated buffer (a `strlen` on an
empty vector's dangling pointer). -/
theorem C8_terminating_feed_runs_engine_once :
    ∀ (st : PushSt) (chunk : Bytes) (url enc : Option Bytes) (opts : Int),
      st.stopped = false →
      st.buffer ++ chunk ≠ [] →
      (st.buffer ++ chunk).length ≤ cIntMax →
      ((xmlParseChunk (some st) chunk true url enc opts).1 = 0 ↔
         (parse_document_from_bytes (st.buffer ++ chunk) opts url enc).isSome = true)
      ∧ (xmlParseChunk (some st) chunk true url enc opts).2.2
          = parse_document_from_bytes (st.buffer ++ chunk) opts url enc
      ∧ (xmlParseChunk (some st) chunk true url enc opts).2.1 = none
      ∧ xmlParseChunk (some ⟨[60, 97, 62], false, false⟩) [60, 47, 97, 62] true none none 0
          = (0, none, some ⟨none, none, none, [XNode.element [97] [] []], 0⟩) := by
  intro st chunk url enc opts hstop hne hlen
  have hgt : ¬((st.buffer ++ chunk).length > cIntMax) := by omega
  unfold xmlParseChunk
  simp only [hstop, Bool.false_eq_true, if_false, if_true, if_neg hgt]
  cases hp : parse_document_from_bytes (st.buffer ++ chunk) opts url enc with
  | none => exact ⟨by simp, rfl, rfl, by rfl⟩
  | some d => exact ⟨by simp, rfl, rfl, by rfl⟩

/-- Witness for C8 at the two-chunk example `<a>` then `</a>`. -/
theorem C8_witness :
    (⟨[60, 97, 62], false, false⟩ : PushSt).stopped = false ∧
    ((⟨[60, 97, 62], false, false⟩ : PushSt).buffer ++ [60, 47, 97, 62]) ≠ [] ∧
    ((⟨[60, 97, 62], false, false⟩ : PushSt).buffer ++ [60, 47, 97, 62]).length ≤ cIntMax ∧
    xmlParseChunk (some ⟨[60, 97, 62], false, false⟩) [60, 47, 97, 62] true none none 0
      = (0, none, some ⟨none, none, none, [XNode.element [97] [] []], 0⟩) :=
  ⟨rfl, by decide, by decide,
   (C8_terminating_feed_runs_engine_once ⟨[60, 97, 62], false, false⟩ [60, 47, 97, 62]
     none none 0 rfl (by decide) (by decide)).2.2.2⟩
